import Mathlib

/-!
Shallow embedding of the asynchronous job queue implemented by `TaskQueue`
in `backend/app/redis_client.py`, together with the worker protocol of
`backend/app/worker.py`.

Redis state is modelled explicitly:
* the list `meeting_processing_queue` becomes `QueueState.queue`
  (`LPUSH` prepends, `BRPOP` pops from the tail, so the list head is the
  "left" end of the Redis list);
* the per-job records `job:{id}` (written with `SETEX`) become the
  association list `QueueState.jobs`, each entry keeping the TTL the last
  save used;
* the set `processing_meetings` becomes `QueueState.processing`.

`datetime.now(...)` values are passed in as explicit parameters, and the
JSON round-trip through `json.dumps`/`json.loads` is elided (it is the
identity on these records), so queue elements are whole `Job` values, just
as the Python code pushes whole serialized job dicts.
-/

namespace MeetingQueue

/-- A job record, i.e. the `job_data` dict of `redis_client.py`.  Fields the
code adds only later (`started_at`, `completed_at`, `failed_at`,
`last_error`, `result`) are `Option`s, with `none` meaning absent from the
dict.  `result` is an opaque string-keyed dict. -/
structure Job where
  id : String
  meeting_id : Int
  file_path : String
  filename : String
  status : String
  created_at : String
  attempts : Nat
  max_attempts : Nat
  started_at : Option String := none
  completed_at : Option String := none
  failed_at : Option String := none
  last_error : Option String := none
  result : Option (List (String × String)) := none
deriving DecidableEq, Repr

/-- An entry of the record store: key, stored job, TTL (seconds) of the
`SETEX` that last wrote it. -/
abbrev Entry := String × Job × Nat

/-- The Redis state the queue touches. -/
structure QueueState where
  queue : List Job
  jobs : List Entry
  processing : List String
deriving DecidableEq, Repr

/-- The key `f"job:\x7bjob_id\x7d"` under which a record is stored. -/
def jobKey (job_id : String) : String := "job:" ++ job_id

/-- The id `f"meeting_\x7bmeeting_id\x7d_\x7btimestamp\x7d"` built by
`enqueue_meeting_job`. -/
def mkJobId (meeting_id : Int) (timestamp : Nat) : String :=
  "meeting_" ++ toString meeting_id ++ "_" ++ toString timestamp

/-- `LPUSH`: prepend to the left end of the list. -/
def lpush (q : List Job) (j : Job) : List Job := j :: q

/-- `BRPOP`: pop from the right end (the tail of our list). `none` models
the timeout case. -/
def brpop (q : List Job) : Option (Job × List Job) :=
  match q.getLast? with
  | some j => some (j, q.dropLast)
  | none => none

/-- Drop every entry stored under `key` (a Redis key holds one value, so a
`SETEX` overwrite removes the previous binding). -/
def removeKey : List Entry → String → List Entry
  | [], _ => []
  | e :: rest, key => if e.1 = key then removeKey rest key else e :: removeKey rest key

/-- `SETEX key ttl value`: bind `key` to the job with the given TTL,
replacing any previous binding. -/
def setex (store : List Entry) (key : String) (ttl : Nat) (j : Job) : List Entry :=
  (key, j, ttl) :: removeKey store key

/-- Lookup of a key in the record store, returning the job and the TTL of
its last save. -/
def rgetEntry : List Entry → String → Option (Job × Nat)
  | [], _ => none
  | e :: rest, key => if e.1 = key then some e.2 else rgetEntry rest key

/-- `GET key`: the stored job, if any (TTL forgotten). -/
def rget (store : List Entry) (key : String) : Option Job :=
  (rgetEntry store key).map Prod.fst

/-- `SADD`: add a member to a set. -/
def sadd (s : List String) (x : String) : List String :=
  if x ∈ s then s else x :: s

/-- `SREM`: remove a member from a set. -/
def srem : List String → String → List String
  | [], _ => []
  | y :: rest, x => if y = x then srem rest x else y :: srem rest x

/-- `TaskQueue.enqueue_meeting_job` (redis_client.py lines 29-54): build the
fresh `job_data` dict, `LPUSH` it onto the queue, save the record with a
24-hour TTL, return the id.  `timestamp` and `now_iso` stand for the two
`datetime.now(timezone.utc)` reads. -/
def enqueue_meeting_job (st : QueueState) (meeting_id : Int)
    (file_path filename : String) (timestamp : Nat) (now_iso : String) :
    QueueState × String :=
  let job_data : Job :=
    { id := mkJobId meeting_id timestamp
      meeting_id := meeting_id
      file_path := file_path
      filename := filename
      status := "queued"
      created_at := now_iso
      attempts := 0
      max_attempts := 3 }
  ({ st with
      queue := lpush st.queue job_data
      jobs := setex st.jobs (jobKey job_data.id) 86400 job_data },
   job_data.id)

/-- `TaskQueue.get_next_job` (lines 56-76): `BRPOP` the queue; on a job,
`SADD` its id to the processing set, set `status := "processing"` and
`started_at`, re-save the record with a 24-hour TTL and return the mutated
`job_data`. -/
def get_next_job (st : QueueState) (now_iso : String) :
    QueueState × Option Job :=
  match brpop st.queue with
  | none => (st, none)
  | some (j, rest) =>
    let job_data := { j with status := "processing", started_at := some now_iso }
    ({ st with
        queue := rest
        processing := sadd st.processing j.id
        jobs := setex st.jobs (jobKey j.id) 86400 job_data },
     some job_data)

/-- `TaskQueue.complete_job` (lines 78-93): `SREM` the id from the
processing set; if the record exists, set `status := "completed"`,
`completed_at`, attach `result` when `result_data` is truthy (a `None` or
empty dict is falsy in Python), and re-save with a 1-hour TTL. -/
def complete_job (st : QueueState) (job_id : String)
    (result_data : Option (List (String × String))) (now_iso : String) :
    QueueState :=
  let st := { st with processing := srem st.processing job_id }
  match rget st.jobs (jobKey job_id) with
  | none => st
  | some j =>
    let j := { j with status := "completed", completed_at := some now_iso }
    let j :=
      match result_data with
      | some r => if r.isEmpty then j else { j with result := some r }
      | none => j
    { st with jobs := setex st.jobs (jobKey job_id) 3600 j }

/-- `TaskQueue.fail_job` (lines 95-118): `SREM` the id from the processing
set; if the record is missing, return.  Otherwise increment `attempts`, set
`last_error` and `failed_at`; when `retry` holds and the incremented
`attempts` is still below `max_attempts`, set `status := "queued"` and
`LPUSH` the updated record back onto the queue, else set
`status := "failed"`; in both cases re-save with a 1-hour TTL. -/
def fail_job (st : QueueState) (job_id : String) (error_message : String)
    (retry : Bool) (now_iso : String) : QueueState :=
  let st := { st with processing := srem st.processing job_id }
  match rget st.jobs (jobKey job_id) with
  | none => st
  | some j =>
    let j := { j with
      attempts := j.attempts + 1
      last_error := some error_message
      failed_at := some now_iso }
    if retry ∧ j.attempts < j.max_attempts then
      let j := { j with status := "queued" }
      { st with
          queue := lpush st.queue j
          jobs := setex st.jobs (jobKey job_id) 3600 j }
    else
      let j := { j with status := "failed" }
      { st with jobs := setex st.jobs (jobKey job_id) 3600 j }

/-- `TaskQueue.get_job_status` (lines 120-125). -/
def get_job_status (st : QueueState) (job_id : String) : Option Job :=
  rget st.jobs (jobKey job_id)

/-- The state of a fresh Redis instance: empty queue, no records, empty
processing set. -/
def emptyState : QueueState := { queue := [], jobs := [], processing := [] }

/-! ### Lemmas about the Redis primitives -/

theorem jobKey_inj {a b : String} (h : jobKey a = jobKey b) : a = b := by
  have hd := congrArg String.data h
  simp [jobKey, String.data_append] at hd
  exact String.ext hd

theorem rgetEntry_removeKey (store : List Entry) (k k' : String) :
    rgetEntry (removeKey store k) k' =
      if k' = k then none else rgetEntry store k' := by
  induction store with
  | nil => simp [removeKey, rgetEntry]
  | cons e rest ih =>
    simp only [removeKey, rgetEntry]
    by_cases h1 : e.1 = k
    · simp only [if_pos h1, ih]
      by_cases h2 : k' = k
      · simp [h2]
      · have hne : ¬ e.1 = k' := fun h => h2 (h1.symm.trans h).symm
        simp [h2, hne]
    · simp only [if_neg h1, rgetEntry]
      by_cases h2 : e.1 = k'
      · have hne : ¬ k' = k := fun hk => h1 (h2.trans hk)
        simp [h2, hne]
      · simp [h2, ih]

theorem rgetEntry_setex (store : List Entry) (k k' : String) (ttl : Nat) (j : Job) :
    rgetEntry (setex store k ttl j) k' =
      if k' = k then some (j, ttl) else rgetEntry store k' := by
  by_cases h : k' = k
  · simp [setex, rgetEntry, h]
  · have : ¬ k = k' := fun hk => h hk.symm
    simp [setex, rgetEntry, this, rgetEntry_removeKey, h]

theorem rget_setex (store : List Entry) (k k' : String) (ttl : Nat) (j : Job) :
    rget (setex store k ttl j) k' =
      if k' = k then some j else rget store k' := by
  by_cases h : k' = k <;> simp [rget, rgetEntry_setex, h]

theorem mem_removeKey {e : Entry} {store : List Entry} {k : String}
    (h : e ∈ removeKey store k) : e ∈ store := by
  induction store with
  | nil => simp [removeKey] at h
  | cons x rest ih =>
    by_cases hx : x.1 = k
    · simp [removeKey, hx] at h
      exact List.mem_cons_of_mem x (ih h)
    · simp [removeKey, hx] at h
      rcases h with h | h
      · exact h ▸ List.mem_cons_self x rest
      · exact List.mem_cons_of_mem x (ih h)

theorem mem_setex {e : Entry} {store : List Entry} {k : String} {ttl : Nat} {j : Job}
    (h : e ∈ setex store k ttl j) : e = (k, j, ttl) ∨ e ∈ store := by
  simp [setex] at h
  rcases h with h | h
  · exact Or.inl h
  · exact Or.inr (mem_removeKey h)

theorem mem_srem {x y : String} {s : List String} :
    x ∈ srem s y ↔ x ∈ s ∧ x ≠ y := by
  induction s with
  | nil => simp [srem]
  | cons z rest ih =>
    by_cases hz : z = y
    · subst hz
      rw [srem, if_pos rfl, ih]
      constructor
      · rintro ⟨hm, hne⟩
        exact ⟨List.mem_cons_of_mem _ hm, hne⟩
      · rintro ⟨hm, hne⟩
        rcases List.mem_cons.mp hm with rfl | hm
        · exact absurd rfl hne
        · exact ⟨hm, hne⟩
    · rw [srem, if_neg hz]
      constructor
      · intro hm
        rcases List.mem_cons.mp hm with rfl | hm
        · exact ⟨List.mem_cons_self _ _, fun h => hz h⟩
        · rcases ih.mp hm with ⟨hm', hne⟩
          exact ⟨List.mem_cons_of_mem _ hm', hne⟩
      · rintro ⟨hm, hne⟩
        rcases List.mem_cons.mp hm with rfl | hm
        · exact List.mem_cons_self _ _
        · exact List.mem_cons_of_mem _ (ih.mpr ⟨hm, hne⟩)

theorem mem_sadd {x y : String} {s : List String} :
    x ∈ sadd s y ↔ x = y ∨ x ∈ s := by
  by_cases h : y ∈ s
  · simp only [sadd, if_pos h]
    constructor
    · exact Or.inr
    · rintro (rfl | hx)
      · exact h
      · exact hx
  · simp [sadd, h, List.mem_cons]

theorem brpop_mem {q rest : List Job} {j : Job} (h : brpop q = some (j, rest)) :
    j ∈ q ∧ rest ⊆ q := by
  unfold brpop at h
  cases hg : q.getLast? with
  | none => rw [hg] at h; simp at h
  | some x =>
    rw [hg] at h
    simp at h
    obtain ⟨rfl, rfl⟩ := h
    refine ⟨List.mem_of_mem_getLast? (by simp [hg, Option.mem_def]), List.dropLast_subset q⟩

theorem rgetEntry_mem {store : List Entry} {k : String} {j : Job} {ttl : Nat}
    (h : rgetEntry store k = some (j, ttl)) : (k, j, ttl) ∈ store := by
  induction store with
  | nil => simp [rgetEntry] at h
  | cons e rest ih =>
    rw [rgetEntry] at h
    by_cases he : e.1 = k
    · rw [if_pos he] at h
      have h2 : e.2 = (j, ttl) := Option.some.inj h
      obtain ⟨e1, e2⟩ := e
      dsimp at he h2
      subst he; subst h2
      exact List.mem_cons_self _ _
    · rw [if_neg he] at h
      exact List.mem_cons_of_mem _ (ih h)

/-! ### Unfolding lemmas for the four operations -/

/-- The `job_data` dict as first created by `enqueue_meeting_job`. -/
def freshJob (meeting_id : Int) (file_path filename : String)
    (timestamp : Nat) (now_iso : String) : Job :=
  { id := mkJobId meeting_id timestamp
    meeting_id := meeting_id
    file_path := file_path
    filename := filename
    status := "queued"
    created_at := now_iso
    attempts := 0
    max_attempts := 3 }

theorem enqueue_eq (st : QueueState) (meeting_id : Int)
    (file_path filename : String) (timestamp : Nat) (now_iso : String) :
    enqueue_meeting_job st meeting_id file_path filename timestamp now_iso =
      ({ st with
          queue := freshJob meeting_id file_path filename timestamp now_iso :: st.queue
          jobs := setex st.jobs (jobKey (mkJobId meeting_id timestamp)) 86400
                    (freshJob meeting_id file_path filename timestamp now_iso) },
       mkJobId meeting_id timestamp) := rfl

theorem get_next_job_eq_none {st : QueueState} (now_iso : String)
    (h : brpop st.queue = none) : get_next_job st now_iso = (st, none) := by
  unfold get_next_job
  rw [h]

theorem get_next_job_eq_some {st : QueueState} (now_iso : String) {j : Job}
    {rest : List Job} (h : brpop st.queue = some (j, rest)) :
    get_next_job st now_iso =
      ({ st with
          queue := rest
          processing := sadd st.processing j.id
          jobs := setex st.jobs (jobKey j.id) 86400
                    { j with status := "processing", started_at := some now_iso } },
       some { j with status := "processing", started_at := some now_iso }) := by
  unfold get_next_job
  rw [h]

theorem complete_job_eq_missing (st : QueueState) (job_id : String)
    (result_data : Option (List (String × String))) (now_iso : String)
    (h : rget st.jobs (jobKey job_id) = none) :
    complete_job st job_id result_data now_iso =
      { st with processing := srem st.processing job_id } := by
  unfold complete_job
  simp only []
  rw [h]

theorem complete_job_eq_found (st : QueueState) (job_id : String)
    (result_data : Option (List (String × String))) (now_iso : String)
    {j : Job} (h : rget st.jobs (jobKey job_id) = some j) :
    complete_job st job_id result_data now_iso =
      { st with
          processing := srem st.processing job_id
          jobs := setex st.jobs (jobKey job_id) 3600
            { j with
                status := "completed"
                completed_at := some now_iso
                result := match result_data with
                          | some r => if r.isEmpty then j.result else some r
                          | none => j.result } } := by
  unfold complete_job
  simp only []
  rw [h]
  rcases result_data with _ | r
  · rfl
  · by_cases hr : r.isEmpty
    · simp [hr]
    · simp [hr]

theorem fail_job_eq_missing (st : QueueState) (job_id error_message : String)
    (retry : Bool) (now_iso : String)
    (h : rget st.jobs (jobKey job_id) = none) :
    fail_job st job_id error_message retry now_iso =
      { st with processing := srem st.processing job_id } := by
  unfold fail_job
  simp only []
  rw [h]

theorem fail_job_eq_retry (st : QueueState) (job_id error_message : String)
    (now_iso : String) {j : Job} (h : rget st.jobs (jobKey job_id) = some j)
    (hlt : j.attempts + 1 < j.max_attempts) :
    fail_job st job_id error_message true now_iso =
      { st with
          processing := srem st.processing job_id
          queue := { j with
                       attempts := j.attempts + 1
                       last_error := some error_message
                       failed_at := some now_iso
                       status := "queued" } :: st.queue
          jobs := setex st.jobs (jobKey job_id) 3600
            { j with
                attempts := j.attempts + 1
                last_error := some error_message
                failed_at := some now_iso
                status := "queued" } } := by
  simp only [fail_job, h, lpush]
  rw [if_pos ⟨trivial, hlt⟩]

theorem fail_job_eq_terminal (st : QueueState) (job_id error_message : String)
    (retry : Bool) (now_iso : String) {j : Job} (h : rget st.jobs (jobKey job_id) = some j)
    (hcond : ¬ (retry = true ∧ j.attempts + 1 < j.max_attempts)) :
    fail_job st job_id error_message retry now_iso =
      { st with
          processing := srem st.processing job_id
          jobs := setex st.jobs (jobKey job_id) 3600
            { j with
                attempts := j.attempts + 1
                last_error := some error_message
                failed_at := some now_iso
                status := "failed" } } := by
  simp only [fail_job, h, lpush]
  rw [if_neg hcond]

/-! ### The worker protocol and reachable states

`worker_loop` (worker.py lines 252-292) dequeues a job and then calls
`complete_job` or `fail_job` only on the id of the job it just dequeued,
which `get_next_job` placed in the processing set.  A step is therefore an
arbitrary enqueue, an arbitrary dequeue, an arbitrary complete, or a fail
of an id currently in the processing set. -/

inductive Step : QueueState → QueueState → Prop
  | enqueue (st : QueueState) (meeting_id : Int) (file_path filename : String)
      (timestamp : Nat) (now_iso : String) :
      Step st (enqueue_meeting_job st meeting_id file_path filename timestamp now_iso).1
  | dequeue (st : QueueState) (now_iso : String) :
      Step st (get_next_job st now_iso).1
  | complete (st : QueueState) (job_id : String)
      (result_data : Option (List (String × String))) (now_iso : String) :
      Step st (complete_job st job_id result_data now_iso)
  | fail (st : QueueState) (job_id error_message : String) (retry : Bool)
      (now_iso : String) (hin : job_id ∈ st.processing) :
      Step st (fail_job st job_id error_message retry now_iso)

/-- States reachable from a fresh Redis instance by the worker protocol. -/
inductive Reachable : QueueState → Prop
  | empty : Reachable emptyState
  | step {s t : QueueState} : Reachable s → Step s t → Reachable t

/-- The inductive invariant: every queued copy still has attempts left,
every stored record respects the `max_attempts` bound (and a saturated
record is never `queued`), and a record whose id is in-flight still has
attempts left. -/
def Inv (st : QueueState) : Prop :=
  (∀ j ∈ st.queue, j.attempts < j.max_attempts) ∧
  (∀ e ∈ st.jobs, e.2.1.attempts ≤ e.2.1.max_attempts ∧
      (e.2.1.attempts = e.2.1.max_attempts → e.2.1.status ≠ "queued")) ∧
  (∀ id ∈ st.processing, ∀ j ttl,
      rgetEntry st.jobs (jobKey id) = some (j, ttl) → j.attempts < j.max_attempts)

theorem Inv_empty : Inv emptyState := by
  refine ⟨?_, ?_, ?_⟩
  · intro j hj
    simp [emptyState] at hj
  · intro e he
    simp [emptyState] at he
  · intro id hid
    simp [emptyState] at hid

theorem rget_eq_some {store : List Entry} {k : String} {j : Job}
    (h : rget store k = some j) : ∃ ttl, rgetEntry store k = some (j, ttl) := by
  unfold rget at h
  cases he : rgetEntry store k with
  | none => rw [he] at h; simp at h
  | some p =>
    rw [he] at h
    simp at h
    refine ⟨p.2, ?_⟩
    rw [← h]

theorem Inv_step {s t : QueueState} (hstep : Step s t) (hinv : Inv s) : Inv t := by
  obtain ⟨h1, h2, h3⟩ := hinv
  cases hstep with
  | enqueue mid fp fn ts now =>
    rw [enqueue_eq]
    refine ⟨?_, ?_, ?_⟩
    · intro j hj
      rcases List.mem_cons.mp hj with rfl | hj
      · exact (by decide : (0 : Nat) < 3)
      · exact h1 j hj
    · intro e he
      rcases mem_setex he with rfl | he
      · exact ⟨(by decide : (0 : Nat) ≤ 3),
          fun heq => absurd heq (by decide : (0 : Nat) ≠ 3)⟩
      · exact h2 e he
    · intro id hid j ttl hg
      rw [rgetEntry_setex] at hg
      by_cases hk : jobKey id = jobKey (mkJobId mid ts)
      · rw [if_pos hk] at hg
        simp only [Option.some.injEq, Prod.mk.injEq] at hg
        obtain ⟨rfl, -⟩ := hg
        exact (by decide : (0 : Nat) < 3)
      · rw [if_neg hk] at hg
        exact h3 id hid j ttl hg
  | dequeue now =>
    cases hb : brpop s.queue with
    | none =>
      rw [get_next_job_eq_none now hb]
      exact ⟨h1, h2, h3⟩
    | some p =>
      obtain ⟨j, rest⟩ := p
      obtain ⟨hjq, hsub⟩ := brpop_mem hb
      have hja : j.attempts < j.max_attempts := h1 j hjq
      rw [get_next_job_eq_some now hb]
      refine ⟨?_, ?_, ?_⟩
      · intro x hx
        exact h1 x (hsub hx)
      · intro e he
        rcases mem_setex he with rfl | he
        · exact ⟨Nat.le_of_lt hja, fun heq => absurd heq (Nat.ne_of_lt hja)⟩
        · exact h2 e he
      · intro id hid x ttl hg
        rw [rgetEntry_setex] at hg
        by_cases hk : jobKey id = jobKey j.id
        · rw [if_pos hk] at hg
          simp only [Option.some.injEq, Prod.mk.injEq] at hg
          obtain ⟨rfl, -⟩ := hg
          exact hja
        · rw [if_neg hk] at hg
          rcases mem_sadd.mp hid with rfl | hid
          · exact absurd rfl hk
          · exact h3 id hid x ttl hg
  | complete job_id res now =>
    cases hg : rget s.jobs (jobKey job_id) with
    | none =>
      rw [complete_job_eq_missing s job_id res now hg]
      refine ⟨h1, h2, ?_⟩
      intro id hid x ttl hx
      exact h3 id (mem_srem.mp hid).1 x ttl hx
    | some j =>
      obtain ⟨ttl0, hg0⟩ := rget_eq_some hg
      have hjmem : (jobKey job_id, j, ttl0) ∈ s.jobs := rgetEntry_mem hg0
      have hjgood := h2 _ hjmem
      rw [complete_job_eq_found s job_id res now hg]
      refine ⟨h1, ?_, ?_⟩
      · intro e he
        rcases mem_setex he with rfl | he
        · exact ⟨hjgood.1, fun _ => (by decide : ¬ ("completed" = "queued"))⟩
        · exact h2 e he
      · intro id hid x ttl hx
        rw [rgetEntry_setex] at hx
        by_cases hk : jobKey id = jobKey job_id
        · exact absurd (jobKey_inj hk) (mem_srem.mp hid).2
        · rw [if_neg hk] at hx
          exact h3 id (mem_srem.mp hid).1 x ttl hx
  | fail job_id err retry now hin =>
    cases hg : rget s.jobs (jobKey job_id) with
    | none =>
      rw [fail_job_eq_missing s job_id err retry now hg]
      refine ⟨h1, h2, ?_⟩
      intro id hid x ttl hx
      exact h3 id (mem_srem.mp hid).1 x ttl hx
    | some j =>
      obtain ⟨ttl0, hg0⟩ := rget_eq_some hg
      have hjlt : j.attempts < j.max_attempts := h3 job_id hin j ttl0 hg0
      by_cases hre : retry = true ∧ j.attempts + 1 < j.max_attempts
      · obtain ⟨rfl, hlt⟩ := hre
        rw [fail_job_eq_retry s job_id err now hg hlt]
        refine ⟨?_, ?_, ?_⟩
        · intro x hx
          rcases List.mem_cons.mp hx with rfl | hx
          · exact hlt
          · exact h1 x hx
        · intro e he
          rcases mem_setex he with rfl | he
          · exact ⟨Nat.le_of_lt hlt, fun heq => absurd heq (Nat.ne_of_lt hlt)⟩
          · exact h2 e he
        · intro id hid x ttl hx
          rw [rgetEntry_setex] at hx
          by_cases hk : jobKey id = jobKey job_id
          · exact absurd (jobKey_inj hk) (mem_srem.mp hid).2
          · rw [if_neg hk] at hx
            exact h3 id (mem_srem.mp hid).1 x ttl hx
      · rw [fail_job_eq_terminal s job_id err retry now hg hre]
        refine ⟨h1, ?_, ?_⟩
        · intro e he
          rcases mem_setex he with rfl | he
          · exact ⟨Nat.succ_le_of_lt hjlt,
              fun _ => (by decide : ¬ ("failed" = "queued"))⟩
          · exact h2 e he
        · intro id hid x ttl hx
          rw [rgetEntry_setex] at hx
          by_cases hk : jobKey id = jobKey job_id
          · exact absurd (jobKey_inj hk) (mem_srem.mp hid).2
          · rw [if_neg hk] at hx
            exact h3 id (mem_srem.mp hid).1 x ttl hx

theorem Inv_reachable {st : QueueState} (h : Reachable st) : Inv st := by
  induction h with
  | empty => exact Inv_empty
  | step _ hstep ih => exact Inv_step hstep ih

/-! ### A concrete execution: enqueue, dequeue, fail with retry, dequeue,
complete.  Used below both for the spec scenario and as a source of
concrete witnesses and counterexamples. -/

def run1 : QueueState :=
  (enqueue_meeting_job emptyState 1 "a.wav" "m1.wav" 100 "T0").1

def run2 : QueueState × Option Job := get_next_job run1 "T1"

def run3 : QueueState := fail_job run2.1 "meeting_1_100" "boom" true "T2"

def run4 : QueueState × Option Job := get_next_job run3 "T3"

def run5 : QueueState := complete_job run4.1 "meeting_1_100" none "T4"

theorem run3_reachable : Reachable run3 :=
  Reachable.step
    (Reachable.step
      (Reachable.step Reachable.empty
        (Step.enqueue emptyState 1 "a.wav" "m1.wav" 100 "T0"))
      (Step.dequeue run1 "T1"))
    (Step.fail run2.1 "meeting_1_100" "boom" true "T2" (by decide))

/-! ### Claims -/

/-- C3: enqueue a job with `max_attempts = 3`; a worker dequeues it and
processing throws, after which the stored record has status `queued` and
`attempts = 1`; it is dequeued again and processing succeeds, after which
the stored record has status `completed` and `attempts` still `1`. -/
theorem scenario_retry_then_success :
    (get_job_status run1 "meeting_1_100").map Job.max_attempts = some 3 ∧
    run2.2.map Job.id = some "meeting_1_100" ∧
    (get_job_status run3 "meeting_1_100").map (fun j => (j.status, j.attempts)) =
      some ("queued", 1) ∧
    run4.2.map Job.id = some "meeting_1_100" ∧
    (get_job_status run5 "meeting_1_100").map (fun j => (j.status, j.attempts)) =
      some ("completed", 1) := by
  decide

/-- C1 counterexample: in the concrete run, `get_next_job` returns the job
`meeting_1_100` while both the returned job and the re-saved record keep
`attempts = 0`, exactly the value stored before the call — the dequeue does
not increment the counter. -/
theorem dequeue_does_not_increment_attempts :
    (get_job_status run1 "meeting_1_100").map Job.attempts = some 0 ∧
    run2.2.map Job.attempts = some 0 ∧
    (get_job_status run2.1 "meeting_1_100").map Job.attempts = some 0 := by
  decide

/-- C1 (amended): the `attempts` counter is never modified on the
queued-to-processing transition: `enqueue_meeting_job` creates the record
with `attempts = 0`, `get_next_job` returns and re-saves the dequeued job
with its `attempts` unchanged, `complete_job` re-saves the record with
`attempts` unchanged, and `fail_job` is the only operation that increments
it — by exactly 1, whenever the record exists. -/
theorem attempts_incremented_only_by_fail_job :
    (∀ (st : QueueState) (mid : Int) (fp fn : String) (ts : Nat) (now : String),
        (rget (enqueue_meeting_job st mid fp fn ts now).1.jobs
            (jobKey (mkJobId mid ts))).map Job.attempts = some 0) ∧
    (∀ (st : QueueState) (now : String) (j : Job) (rest : List Job),
        brpop st.queue = some (j, rest) →
        (get_next_job st now).2.map Job.attempts = some j.attempts ∧
        (rget (get_next_job st now).1.jobs (jobKey j.id)).map Job.attempts =
          some j.attempts) ∧
    (∀ (st : QueueState) (id : String) (res : Option (List (String × String)))
        (now : String) (j : Job),
        rget st.jobs (jobKey id) = some j →
        (rget (complete_job st id res now).jobs (jobKey id)).map Job.attempts =
          some j.attempts) ∧
    (∀ (st : QueueState) (id err : String) (retry : Bool) (now : String) (j : Job),
        rget st.jobs (jobKey id) = some j →
        (rget (fail_job st id err retry now).jobs (jobKey id)).map Job.attempts =
          some (j.attempts + 1)) := by
  refine ⟨?_, ?_, ?_, ?_⟩
  · intro st mid fp fn ts now
    rw [enqueue_eq]
    simp only [rget_setex, if_pos rfl]
    rfl
  · intro st now j rest hb
    rw [get_next_job_eq_some now hb]
    constructor
    · rfl
    · simp only [rget_setex, if_pos rfl]
      rfl
  · intro st id res now j h
    rw [complete_job_eq_found st id res now h]
    simp only [rget_setex, if_pos rfl]
    rfl
  · intro st id err retry now j h
    by_cases hre : retry = true ∧ j.attempts + 1 < j.max_attempts
    · obtain ⟨rfl, hlt⟩ := hre
      rw [fail_job_eq_retry st id err now h hlt]
      simp only [rget_setex, if_pos rfl]
      rfl
    · rw [fail_job_eq_terminal st id err retry now h hre]
      simp only [rget_setex, if_pos rfl]
      rfl

/-- Witness for the amended C1 theorem: its four parts applied to the
concrete run. -/
theorem attempts_incremented_only_by_fail_job_witness :
    ((rget run1.jobs (jobKey (mkJobId 1 100))).map Job.attempts = some 0) ∧
    (run2.2.map Job.attempts = some 0 ∧
      (rget run2.1.jobs (jobKey "meeting_1_100")).map Job.attempts = some 0) ∧
    ((rget (complete_job run2.1 "meeting_1_100" none "T9").jobs
        (jobKey "meeting_1_100")).map Job.attempts = some 0) ∧
    ((rget run3.jobs (jobKey "meeting_1_100")).map Job.attempts = some (0 + 1)) := by
  refine ⟨?_, ?_, ?_, ?_⟩
  · exact attempts_incremented_only_by_fail_job.1 emptyState 1 "a.wav" "m1.wav" 100 "T0"
  · exact attempts_incremented_only_by_fail_job.2.1 run1 "T1"
      (freshJob 1 "a.wav" "m1.wav" 100 "T0") [] (by decide)
  · exact attempts_incremented_only_by_fail_job.2.2.1 run2.1 "meeting_1_100" none "T9"
      { id := "meeting_1_100", meeting_id := 1, file_path := "a.wav",
        filename := "m1.wav", status := "processing", created_at := "T0",
        attempts := 0, max_attempts := 3, started_at := some "T1" } (by decide)
  · exact attempts_incremented_only_by_fail_job.2.2.2 run2.1 "meeting_1_100" "boom"
      true "T2"
      { id := "meeting_1_100", meeting_id := 1, file_path := "a.wav",
        filename := "m1.wav", status := "processing", created_at := "T0",
        attempts := 0, max_attempts := 3, started_at := some "T1" } (by decide)

/-- C2: in every state reachable by the worker protocol, every stored job
record has `attempts ≤ max_attempts`, a record whose `attempts` equals
`max_attempts` never has status `queued` (`fail_job` re-enqueues only when
the incremented `attempts` is strictly below `max_attempts`), and every
job copy sitting in the pending queue still has `attempts <
max_attempts`. -/
theorem attempts_never_exceed_max (st : QueueState) (h : Reachable st) :
    (∀ e ∈ st.jobs, e.2.1.attempts ≤ e.2.1.max_attempts ∧
        (e.2.1.attempts = e.2.1.max_attempts → e.2.1.status ≠ "queued")) ∧
    (∀ j ∈ st.queue, j.attempts < j.max_attempts) := by
  obtain ⟨h1, h2, h3⟩ := Inv_reachable h
  exact ⟨h2, h1⟩

/-- Witness for C2: the bound, instantiated at the record stored in the
concrete reachable state `run3` (a job that has failed once). -/
theorem attempts_never_exceed_max_witness :
    (1 : Nat) ≤ 3 ∧ ((1 : Nat) = 3 → ("queued" : String) ≠ "queued") :=
  (attempts_never_exceed_max run3 run3_reachable).1
    (jobKey "meeting_1_100",
      { id := "meeting_1_100", meeting_id := 1, file_path := "a.wav",
        filename := "m1.wav", status := "queued", created_at := "T0",
        attempts := 1, max_attempts := 3, started_at := some "T1",
        failed_at := some "T2", last_error := some "boom" },
      3600)
    (by decide)

/-- C8: when no record is stored under the given id, `complete_job` and
`fail_job` only remove the id from the processing set: no record is saved,
nothing is raised, and `fail_job` pushes nothing back onto the queue even
with `retry = true`. -/
theorem missing_record_is_noop (st : QueueState) (job_id : String)
    (res : Option (List (String × String))) (err : String) (retry : Bool)
    (now1 now2 : String) (h : rget st.jobs (jobKey job_id) = none) :
    complete_job st job_id res now1 =
      { st with processing := srem st.processing job_id } ∧
    fail_job st job_id err retry now2 =
      { st with processing := srem st.processing job_id } :=
  ⟨complete_job_eq_missing st job_id res now1 h,
   fail_job_eq_missing st job_id err retry now2 h⟩

/-- Witness for C8: completing or failing an id in the empty store changes
nothing (the processing set is already empty). -/
theorem missing_record_is_noop_witness :
    complete_job emptyState "ghost" none "T0" =
      { emptyState with processing := srem emptyState.processing "ghost" } ∧
    fail_job emptyState "ghost" "err" true "T1" =
      { emptyState with processing := srem emptyState.processing "ghost" } :=
  missing_record_is_noop emptyState "ghost" none "err" true "T0" "T1" (by decide)

/-- C9: `complete_job` re-saves the stored record changing only `status`
(to `completed`), `completed_at` and — when non-empty result data is
supplied — `result`; the record-update form of the right-hand side keeps
every other field (`id`, `meeting_id`, `file_path`, `filename`,
`created_at`, `attempts`, `max_attempts`, `started_at`, `failed_at`,
`last_error`) exactly as loaded. -/
theorem complete_job_frame (st : QueueState) (job_id : String)
    (res : Option (List (String × String))) (now : String) (j : Job)
    (h : rget st.jobs (jobKey job_id) = some j) :
    rget (complete_job st job_id res now).jobs (jobKey job_id) =
      some { j with
               status := "completed"
               completed_at := some now
               result := match res with
                         | some r => if r.isEmpty then j.result else some r
                         | none => j.result } := by
  rw [complete_job_eq_found st job_id res now h, rget_setex, if_pos rfl]

/-- Witness for C9: the frame condition applied to the processing record of
the concrete run, with result data supplied. -/
theorem complete_job_frame_witness :
    rget (complete_job run2.1 "meeting_1_100" (some [("k", "v")]) "T4").jobs
        (jobKey "meeting_1_100") =
      some { id := "meeting_1_100", meeting_id := 1, file_path := "a.wav",
             filename := "m1.wav", status := "completed", created_at := "T0",
             attempts := 0, max_attempts := 3, started_at := some "T1",
             completed_at := some "T4", result := some [("k", "v")] } :=
  complete_job_frame run2.1 "meeting_1_100" (some [("k", "v")]) "T4"
    { id := "meeting_1_100", meeting_id := 1, file_path := "a.wav",
      filename := "m1.wav", status := "processing", created_at := "T0",
      attempts := 0, max_attempts := 3, started_at := some "T1" }
    (by decide)

theorem not_mem_srem_self (s : List String) (x : String) : x ∉ srem s x := by
  intro h
  exact (mem_srem.mp h).2 rfl

/-- C10: `complete_job` and `fail_job` start by removing the id from the
processing set and never re-add it, so after either call — record present
or not, retry or not — the id is not a member of the in-flight set. -/
theorem terminal_ops_remove_inflight (st : QueueState) (job_id err : String)
    (res : Option (List (String × String))) (retry : Bool)
    (now1 now2 : String) :
    job_id ∉ (complete_job st job_id res now1).processing ∧
    job_id ∉ (fail_job st job_id err retry now2).processing := by
  constructor
  · cases hg : rget st.jobs (jobKey job_id) with
    | none =>
      rw [complete_job_eq_missing st job_id res now1 hg]
      exact not_mem_srem_self st.processing job_id
    | some j =>
      rw [complete_job_eq_found st job_id res now1 hg]
      exact not_mem_srem_self st.processing job_id
  · cases hg : rget st.jobs (jobKey job_id) with
    | none =>
      rw [fail_job_eq_missing st job_id err retry now2 hg]
      exact not_mem_srem_self st.processing job_id
    | some j =>
      by_cases hre : retry = true ∧ j.attempts + 1 < j.max_attempts
      · obtain ⟨rfl, hlt⟩ := hre
        rw [fail_job_eq_retry st job_id err now2 hg hlt]
        exact not_mem_srem_self st.processing job_id
      · rw [fail_job_eq_terminal st job_id err retry now2 hg hre]
        exact not_mem_srem_self st.processing job_id

/-- C4: with jobs A then B enqueued into an empty queue (distinct ids), the
first dequeue yields A; after A fails with retry requested (attempts
remaining, since a fresh job has `attempts = 0` and `max_attempts = 3`),
the next dequeue yields B, not A — the retried copy is `LPUSH`ed to the
same end as fresh arrivals, behind the already pending B. -/
theorem retry_requeues_behind_pending
    (mid1 mid2 : Int) (ts1 ts2 : Nat)
    (fp1 fn1 t0 fp2 fn2 t1 t2 err t3 t4 : String)
    (hne : mkJobId mid1 ts1 ≠ mkJobId mid2 ts2) :
    (get_next_job
        (enqueue_meeting_job
          (enqueue_meeting_job emptyState mid1 fp1 fn1 ts1 t0).1
          mid2 fp2 fn2 ts2 t1).1 t2).2.map Job.id = some (mkJobId mid1 ts1) ∧
    (get_next_job
        (fail_job
          (get_next_job
            (enqueue_meeting_job
              (enqueue_meeting_job emptyState mid1 fp1 fn1 ts1 t0).1
              mid2 fp2 fn2 ts2 t1).1 t2).1
          (mkJobId mid1 ts1) err true t3) t4).2.map Job.id =
      some (mkJobId mid2 ts2) ∧
    mkJobId mid2 ts2 ≠ mkJobId mid1 ts1 := by
  have hb1 : brpop (enqueue_meeting_job
      (enqueue_meeting_job emptyState mid1 fp1 fn1 ts1 t0).1
      mid2 fp2 fn2 ts2 t1).1.queue =
      some (freshJob mid1 fp1 fn1 ts1 t0, [freshJob mid2 fp2 fn2 ts2 t1]) := rfl
  have hkey : rget (get_next_job
      (enqueue_meeting_job
        (enqueue_meeting_job emptyState mid1 fp1 fn1 ts1 t0).1
        mid2 fp2 fn2 ts2 t1).1 t2).1.jobs (jobKey (mkJobId mid1 ts1)) =
      some { freshJob mid1 fp1 fn1 ts1 t0 with
               status := "processing"
               started_at := some t2 } := by
    simp only [get_next_job_eq_some t2 hb1]
    rw [rget_setex, if_pos (show jobKey (mkJobId mid1 ts1) =
      jobKey (freshJob mid1 fp1 fn1 ts1 t0).id from rfl)]
  refine ⟨rfl, ?_, fun h => hne h.symm⟩
  rw [fail_job_eq_retry _ _ err t3 hkey (by decide : (0 : Nat) + 1 < 3)]
  rfl

/-- Witness for C4: the ordering property at concrete jobs
`meeting_1_10` (A) and `meeting_2_20` (B). -/
theorem retry_requeues_behind_pending_witness :
    (get_next_job
        (enqueue_meeting_job
          (enqueue_meeting_job emptyState 1 "a.wav" "A.wav" 10 "T0").1
          2 "b.wav" "B.wav" 20 "T1").1 "T2").2.map Job.id =
      some (mkJobId 1 10) ∧
    (get_next_job
        (fail_job
          (get_next_job
            (enqueue_meeting_job
              (enqueue_meeting_job emptyState 1 "a.wav" "A.wav" 10 "T0").1
              2 "b.wav" "B.wav" 20 "T1").1 "T2").1
          (mkJobId 1 10) "boom" true "T3") "T4").2.map Job.id =
      some (mkJobId 2 20) ∧
    mkJobId 2 20 ≠ mkJobId 1 10 :=
  retry_requeues_behind_pending 1 2 10 20 "a.wav" "A.wav" "T0" "b.wav" "B.wav"
    "T1" "T2" "boom" "T3" "T4" (by decide)

/-- C5 counterexample: in the concrete run, the record of the job re-queued
for retry by `fail_job` is saved with status `queued` but a 1-hour TTL
(3600 seconds), not the 24-hour TTL the claim requires for a saved status
of `queued`. -/
theorem requeued_record_saved_with_one_hour_ttl :
    (rgetEntry run3.jobs (jobKey "meeting_1_100")).map
        (fun e => (e.1.status, e.2)) = some ("queued", 3600) ∧
    (3600 : Nat) ≠ 86400 := by
  decide

/-- C5 (amended): the expiration is determined by the saving operation, not
by the saved status: `enqueue_meeting_job` and `get_next_job` save with a
24-hour TTL (statuses `queued` and `processing`), while `complete_job` and
`fail_job` always save with a 1-hour TTL — including the record a retry
re-queues, which is saved with status `queued` and TTL 3600. -/
theorem save_ttl_by_operation :
    (∀ (st : QueueState) (mid : Int) (fp fn : String) (ts : Nat) (now : String),
        rgetEntry (enqueue_meeting_job st mid fp fn ts now).1.jobs
            (jobKey (mkJobId mid ts)) =
          some (freshJob mid fp fn ts now, 86400)) ∧
    (∀ (st : QueueState) (now : String) (j : Job) (rest : List Job),
        brpop st.queue = some (j, rest) →
        rgetEntry (get_next_job st now).1.jobs (jobKey j.id) =
          some ({ j with status := "processing", started_at := some now }, 86400)) ∧
    (∀ (st : QueueState) (id : String) (res : Option (List (String × String)))
        (now : String) (j : Job),
        rget st.jobs (jobKey id) = some j →
        (rgetEntry (complete_job st id res now).jobs (jobKey id)).map Prod.snd =
          some 3600) ∧
    (∀ (st : QueueState) (id err : String) (retry : Bool) (now : String) (j : Job),
        rget st.jobs (jobKey id) = some j →
        (rgetEntry (fail_job st id err retry now).jobs (jobKey id)).map Prod.snd =
          some 3600) := by
  refine ⟨?_, ?_, ?_, ?_⟩
  · intro st mid fp fn ts now
    rw [enqueue_eq]
    simp [rgetEntry_setex]
  · intro st now j rest hb
    rw [get_next_job_eq_some now hb]
    simp [rgetEntry_setex]
  · intro st id res now j h
    rw [complete_job_eq_found st id res now h]
    simp only [rgetEntry_setex, if_pos rfl]
    rfl
  · intro st id err retry now j h
    by_cases hre : retry = true ∧ j.attempts + 1 < j.max_attempts
    · obtain ⟨rfl, hlt⟩ := hre
      rw [fail_job_eq_retry st id err now h hlt]
      simp only [rgetEntry_setex, if_pos rfl]
      rfl
    · rw [fail_job_eq_terminal st id err retry now h hre]
      simp only [rgetEntry_setex, if_pos rfl]
      rfl

/-- Witness for the amended C5 theorem: its four parts applied to the
concrete run. -/
theorem save_ttl_by_operation_witness :
    (rgetEntry run1.jobs (jobKey (mkJobId 1 100)) =
      some (freshJob 1 "a.wav" "m1.wav" 100 "T0", 86400)) ∧
    (rgetEntry run2.1.jobs (jobKey "meeting_1_100") =
      some ({ freshJob 1 "a.wav" "m1.wav" 100 "T0" with
                status := "processing"
                started_at := some "T1" }, 86400)) ∧
    ((rgetEntry (complete_job run2.1 "meeting_1_100" none "T9").jobs
        (jobKey "meeting_1_100")).map Prod.snd = some 3600) ∧
    ((rgetEntry run3.jobs (jobKey "meeting_1_100")).map Prod.snd = some 3600) := by
  refine ⟨?_, ?_, ?_, ?_⟩
  · exact save_ttl_by_operation.1 emptyState 1 "a.wav" "m1.wav" 100 "T0"
  · exact save_ttl_by_operation.2.1 run1 "T1"
      (freshJob 1 "a.wav" "m1.wav" 100 "T0") [] (by decide)
  · exact save_ttl_by_operation.2.2.1 run2.1 "meeting_1_100" none "T9"
      { id := "meeting_1_100", meeting_id := 1, file_path := "a.wav",
        filename := "m1.wav", status := "processing", created_at := "T0",
        attempts := 0, max_attempts := 3, started_at := some "T1" } (by decide)
  · exact save_ttl_by_operation.2.2.2 run2.1 "meeting_1_100" "boom" true "T2"
      { id := "meeting_1_100", meeting_id := 1, file_path := "a.wav",
        filename := "m1.wav", status := "processing", created_at := "T0",
        attempts := 0, max_attempts := 3, started_at := some "T1" } (by decide)

/-- C6 counterexample: in the concrete run the job fails once and then
succeeds; its final stored record has status `completed` yet still carries
`last_error = "boom"` — `complete_job` never removes the field. -/
theorem completed_record_retains_last_error :
    (get_job_status run5 "meeting_1_100").map
        (fun j => (j.status, j.last_error)) =
      some ("completed", some "boom") := by
  decide

/-- C6 (amended): `last_error` is absent when the record is created, is set
by every `fail_job` on an existing record, and is carried over unchanged by
`complete_job` — so a completed record has `last_error` absent only when no
attempt ever failed; after a failed attempt the completed record retains
the last failure message. -/
theorem complete_job_preserves_last_error :
    (∀ (st : QueueState) (mid : Int) (fp fn : String) (ts : Nat) (now : String),
        (rget (enqueue_meeting_job st mid fp fn ts now).1.jobs
            (jobKey (mkJobId mid ts))).map Job.last_error = some none) ∧
    (∀ (st : QueueState) (id : String) (res : Option (List (String × String)))
        (now : String) (j : Job),
        rget st.jobs (jobKey id) = some j →
        (rget (complete_job st id res now).jobs (jobKey id)).map Job.last_error =
          some j.last_error) ∧
    (∀ (st : QueueState) (id err : String) (retry : Bool) (now : String) (j : Job),
        rget st.jobs (jobKey id) = some j →
        (rget (fail_job st id err retry now).jobs (jobKey id)).map Job.last_error =
          some (some err)) := by
  refine ⟨?_, ?_, ?_⟩
  · intro st mid fp fn ts now
    rw [enqueue_eq]
    simp only [rget_setex, if_pos rfl]
    rfl
  · intro st id res now j h
    rw [complete_job_eq_found st id res now h]
    simp only [rget_setex, if_pos rfl]
    rfl
  · intro st id err retry now j h
    by_cases hre : retry = true ∧ j.attempts + 1 < j.max_attempts
    · obtain ⟨rfl, hlt⟩ := hre
      rw [fail_job_eq_retry st id err now h hlt]
      simp only [rget_setex, if_pos rfl]
      rfl
    · rw [fail_job_eq_terminal st id err retry now h hre]
      simp only [rget_setex, if_pos rfl]
      rfl

/-- Witness for the amended C6 theorem: its three parts applied to the
concrete run (creation, completion after a failure, and the failure
itself). -/
theorem complete_job_preserves_last_error_witness :
    ((rget run1.jobs (jobKey (mkJobId 1 100))).map Job.last_error = some none) ∧
    ((rget run5.jobs (jobKey "meeting_1_100")).map Job.last_error =
      some (some "boom")) ∧
    ((rget run3.jobs (jobKey "meeting_1_100")).map Job.last_error =
      some (some "boom")) := by
  refine ⟨?_, ?_, ?_⟩
  · exact complete_job_preserves_last_error.1 emptyState 1 "a.wav" "m1.wav" 100 "T0"
  · exact complete_job_preserves_last_error.2.1 run4.1 "meeting_1_100" none "T4"
      { id := "meeting_1_100", meeting_id := 1, file_path := "a.wav",
        filename := "m1.wav", status := "processing", created_at := "T0",
        attempts := 1, max_attempts := 3, started_at := some "T3",
        failed_at := some "T2", last_error := some "boom" } (by decide)
  · exact complete_job_preserves_last_error.2.2 run2.1 "meeting_1_100" "boom"
      true "T2"
      { id := "meeting_1_100", meeting_id := 1, file_path := "a.wav",
        filename := "m1.wav", status := "processing", created_at := "T0",
        attempts := 0, max_attempts := 3, started_at := some "T1" } (by decide)

/-- C7 counterexample: two enqueues that build the same id (same meeting id
and timestamp) but different file paths push different elements onto the
pending queue — the pushed element carries the whole job record, not just
the identifier. -/
theorem queue_element_not_only_identifier :
    (enqueue_meeting_job emptyState 1 "a.wav" "f" 5 "T").2 =
      (enqueue_meeting_job emptyState 1 "b.wav" "f" 5 "T").2 ∧
    (enqueue_meeting_job emptyState 1 "a.wav" "f" 5 "T").1.queue ≠
      (enqueue_meeting_job emptyState 1 "b.wav" "f" 5 "T").1.queue := by
  decide

/-- C7 (amended): every element pushed onto the pending queue is the full
job record, not a bare identifier: `enqueue_meeting_job` pushes the same
complete record it saves under the id, and a retrying `fail_job` pushes
the full updated record (so job state also travels through the queue; the
record store is not its sole holder). -/
theorem queue_holds_full_job_records :
    (∀ (st : QueueState) (mid : Int) (fp fn : String) (ts : Nat) (now : String),
        (enqueue_meeting_job st mid fp fn ts now).1.queue =
          freshJob mid fp fn ts now :: st.queue ∧
        rget (enqueue_meeting_job st mid fp fn ts now).1.jobs
            (jobKey (mkJobId mid ts)) =
          some (freshJob mid fp fn ts now)) ∧
    (∀ (st : QueueState) (id err now : String) (j : Job),
        rget st.jobs (jobKey id) = some j →
        j.attempts + 1 < j.max_attempts →
        (fail_job st id err true now).queue =
          { j with
              attempts := j.attempts + 1
              last_error := some err
              failed_at := some now
              status := "queued" } :: st.queue) := by
  constructor
  · intro st mid fp fn ts now
    constructor
    · rw [enqueue_eq]
    · rw [enqueue_eq]
      simp [rget_setex]
  · intro st id err now j h hlt
    rw [fail_job_eq_retry st id err now h hlt]

/-- Witness for the amended C7 theorem: both parts applied to the concrete
run (the fresh enqueue and the retry re-push of the failed job). -/
theorem queue_holds_full_job_records_witness :
    (run1.queue = freshJob 1 "a.wav" "m1.wav" 100 "T0" :: emptyState.queue ∧
      rget run1.jobs (jobKey (mkJobId 1 100)) =
        some (freshJob 1 "a.wav" "m1.wav" 100 "T0")) ∧
    (run3.queue =
      { id := "meeting_1_100", meeting_id := 1, file_path := "a.wav",
        filename := "m1.wav", status := "queued", created_at := "T0",
        attempts := 0 + 1, max_attempts := 3, started_at := some "T1",
        failed_at := some "T2", last_error := some "boom" } :: run2.1.queue) := by
  constructor
  · exact queue_holds_full_job_records.1 emptyState 1 "a.wav" "m1.wav" 100 "T0"
  · exact queue_holds_full_job_records.2 run2.1 "meeting_1_100" "boom" "T2"
      { id := "meeting_1_100", meeting_id := 1, file_path := "a.wav",
        filename := "m1.wav", status := "processing", created_at := "T0",
        attempts := 0, max_attempts := 3, started_at := some "T1" }
      (by decide) (by decide)

end MeetingQueue
